import Mathlib

/-!
Verification of the SkyLore citizen-science data pipeline
(`app.py`, `data_loader.py`, `visualizations.py`, `urltoconstallation.py`).

Submissions are embedded as `Row` records; timestamps are UTC instants in
whole seconds since the Unix epoch (`Int` for the canonical table, `Nat`
for the aggregator, whose model domain is the post-1970 range the system
actually produces via `datetime.utcnow()`).  The four sidebar filter
stages of `app.py` and the `time_series` aggregator of
`visualizations.py` are translated stage by stage below.
-/

/-! ### Calendar helpers (proleptic Gregorian, epoch 1970-01-01) -/

/-- Gregorian leap-year test. -/
def isLeap (y : Nat) : Bool :=
  (y % 4 == 0 && y % 100 != 0) || y % 400 == 0

/-- Number of days in month index `k`, where `k` counts months from
January 1970 (so `k = 0` is 1970-01, `k = 12` is 1971-01, ...). -/
def daysInMonthIdx (k : Nat) : Nat :=
  let y := 1970 + k / 12
  let m := k % 12 + 1
  if m == 2 then (if isLeap y then 29 else 28)
  else if m == 4 || m == 6 || m == 9 || m == 11 then 30
  else 31

/-- Day number (days since 1970-01-01) of the first day of month index `k`. -/
def monthStart : Nat → Nat
  | 0 => 0
  | k + 1 => monthStart k + daysInMonthIdx k

/-- Day number of the civil date `y-m-d` (for dates from 1970 on). -/
def epochDays (y m d : Nat) : Nat :=
  monthStart ((y - 1970) * 12 + (m - 1)) + (d - 1)

/-- Seconds since 1970-01-01T00:00:00Z of a civil UTC datetime. -/
def epochSeconds (y m d hh mm ss : Nat) : Int :=
  ((epochDays y m d) * 86400 + hh * 3600 + mm * 60 + ss : Nat)

/-! ### Timestamp normalization (`data_loader.py`, `_parse_timestamp_utc`) -/

/-- The result of `pd.to_datetime` on an ISO-8601-like string: the wall-clock
reading (as seconds since epoch, read as if it were UTC) together with the
UTC offset the string carried, if any (`None` for a tz-naive string). -/
structure ParsedTs where
  naive : Int
  utcoffset : Option Int
deriving DecidableEq

/-- Pandas `Timestamp.tz_localize("UTC")` on a naive timestamp: the wall-clock
reading is declared to be UTC, so the instant is the reading itself. -/
def tz_localize_utc (t : Int) : Int := t

/-- Pandas `Timestamp.tz_convert("UTC")` on a zone-aware timestamp: subtract the
carried offset to obtain the UTC instant. -/
def tz_convert_utc (t : Int) (off : Int) : Int := t - off

/-- Function `_parse_timestamp_utc` (`data_loader.py` lines 30-39): parse, then
localize naive readings to UTC and convert zone-aware readings to UTC. -/
def parse_timestamp_utc (ts : ParsedTs) : Int :=
  match ts.utcoffset with
  | none => tz_localize_utc ts.naive
  | some off => tz_convert_utc ts.naive off

/-! ### Canonical table (`data_loader.py`, `load_data`) -/

/-- One canonical Submission row, as produced by `load_data`.
`constellation_names` is always a Python list for loader-produced rows
(the loader defaults it to `[]`), which is why `matches_constellation`
below always takes its `isinstance(..., list)` branch. -/
structure Row where
  id : String
  photo_url : String
  latitude : ℝ
  longitude : ℝ
  timestamp : Int
  brightness_rating : Int
  constellation_name : String
  constellation_names : List String

/-- One raw mock-JSON entry, after field coercion but before timestamp
normalization and sorting. -/
structure RawEntry where
  id : String
  photo_url : String
  latitude : ℝ
  longitude : ℝ
  timestamp : ParsedTs
  brightness_rating : Int
  constellation_name : String
  constellation_names : List String

/-- Normalization of one raw entry into a canonical row
(`load_data`, lines 56-66: field copies plus `_parse_timestamp_utc`). -/
def normalizeEntry (e : RawEntry) : Row :=
  ⟨e.id, e.photo_url, e.latitude, e.longitude,
    parse_timestamp_utc e.timestamp, e.brightness_rating,
    e.constellation_name, e.constellation_names⟩

/-- Function `load_data` (`data_loader.py` lines 55-70): normalize every entry then
`df.sort_values("timestamp")` — sort by timestamp ascending.  The db
variant (lines 95-110) ends with the identical sort. -/
def load_data (entries : List RawEntry) : List Row :=
  (entries.map normalizeEntry).mergeSort
    (fun a b => decide (a.timestamp ≤ b.timestamp))

/-! ### Constellation substring stage (`app.py` lines 174-186) -/

/-- Whether `needle` occurs as a contiguous sublist of `hay`
(the Python expression `needle in hay` on strings). -/
def hasSubstr (needle : List Char) : List Char → Bool
  | [] => needle.isEmpty
  | c :: rest => needle.isPrefixOf (c :: rest) || hasSubstr needle rest

/-- Python `str.lower()`: lower each character (`String.toLower` maps
`Char.toLower` over the characters). -/
def lowerChars (l : List Char) : List Char := l.map Char.toLower

/-- Case-insensitive substring test:
`needle.lower() in hay.lower()`. -/
def substrCI (needle hay : String) : Bool :=
  hasSubstr (lowerChars needle.toList) (lowerChars hay.toList)

/-- Function `matches_constellation` (`app.py` lines 176-184), on canonical rows.
Because loader-produced rows always carry a list in `constellation_names`,
the list-instance branch is always taken:
`any(const_filter.lower() in str(n).lower() for n in names if n)`.
The `elif` fallback to `constellation_name` is unreachable here. -/
def matches_constellation (f : String) (row : Row) : Bool :=
  row.constellation_names.any (fun n => (n != "") && substrCI f n)

/-- Modelled from the spec: the predicate claim C1 states — match any entry
of `constellation_names` when that sequence is non-empty, otherwise match
`constellation_name`.  Kept only to compare against the source function
`matches_constellation`. -/
def spec_matches_constellation (f : String) (row : Row) : Bool :=
  if row.constellation_names.isEmpty then substrCI f row.constellation_name
  else row.constellation_names.any (fun n => substrCI f n)

/-- The constellation stage (`app.py` lines 175, 186): applied only when
the filter string is non-empty (`if const_filter:`). -/
def constellationStage (f : String) (rows : List Row) : List Row :=
  if f = "" then rows else rows.filter (matches_constellation f)

/-! ### Brightness floor stage (`app.py` line 172) -/

/-- Source line `filtered[filtered["brightness_rating"] >= min_brightness]`. -/
def brightStage (min_brightness : Int) (rows : List Row) : List Row :=
  rows.filter (fun r => decide (min_brightness ≤ r.brightness_rating))

/-! ### Date range stage (`app.py` lines 135-169) -/

/-- The date stage, parameterized by the optional `(start_day, end_day)`
pair (day numbers) from the sidebar `date_input`.  When present:
`start = Timestamp(date0)` (midnight) and
`end = Timestamp(date1) + Timedelta(days=1) - Timedelta(seconds=1)`,
both resolved to the (UTC) timestamp zone of the table, then
`filtered[(ts >= start) & (ts <= end)]`. -/
def dateStage : Option (Int × Int) → List Row → List Row
  | none, rows => rows
  | some (s, e), rows =>
      rows.filter (fun r =>
        decide (s * 86400 ≤ r.timestamp) &&
        decide (r.timestamp ≤ (e + 1) * 86400 - 1))

/-! ### Geospatial radius stage (`app.py` lines 188-208) -/

/-- Numpy `np.radians`: degrees to radians. -/
noncomputable def radians (x : ℝ) : ℝ := x * Real.pi / 180

/-- Function `haversine_km` (`app.py` lines 189-200): haversine great-circle
distance on a sphere of radius 6371.0 km, all inputs in degrees. -/
noncomputable def haversine_km (lat1 lon1 lat2 lon2 : ℝ) : ℝ :=
  let R : ℝ := 6371.0
  let lat1r := radians lat1
  let lon1r := radians lon1
  let lat2r := radians lat2
  let lon2r := radians lon2
  let dlat := lat2r - lat1r
  let dlon := lon2r - lon1r
  let a := Real.sin (dlat / 2) ^ 2 +
    Real.cos lat1r * Real.cos lat2r * Real.sin (dlon / 2) ^ 2
  let c := 2 * Real.arcsin (Real.sqrt a)
  R * c

open Classical in
/-- The area stage (`app.py` lines 202-208): keep the rows whose haversine
distance to the center is `<= radius_km`
(`filtered.iloc[np.where(dists <= radius_km)[0]]`; the empty-table branch
returns the empty table, which the filter also does). -/
noncomputable def area_filtered (centerLat centerLon radius_km : ℝ)
    (rows : List Row) : List Row :=
  rows.filter (fun r =>
    decide (haversine_km centerLat centerLon r.latitude r.longitude ≤ radius_km))

/-! ### The full filter pipeline (`app.py` lines 134-208) -/

/-- The sidebar parameters of one filtering pass. -/
structure FilterParams where
  dateRange : Option (Int × Int)
  min_brightness : Int
  const_filter : String
  centerLat : ℝ
  centerLon : ℝ
  radius_km : ℝ

/-- The pipeline in source order: date range, then brightness floor, then
constellation substring, then geospatial radius. -/
noncomputable def fullPipeline (p : FilterParams) (rows : List Row) : List Row :=
  area_filtered p.centerLat p.centerLon p.radius_km
    (constellationStage p.const_filter
      (brightStage p.min_brightness
        (dateStage p.dateRange rows)))

/-- A tag for each of the four filter stages. -/
inductive StageTag where
  | date | bright | const | area
deriving DecidableEq

/-- The row predicate each stage filters with (stage conditionals included:
an inactive stage keeps every row). -/
noncomputable def stagePred (p : FilterParams) : StageTag → Row → Bool
  | .date, r =>
      match p.dateRange with
      | none => true
      | some (s, e) =>
          decide (s * 86400 ≤ r.timestamp) &&
          decide (r.timestamp ≤ (e + 1) * 86400 - 1)
  | .bright, r => decide (p.min_brightness ≤ r.brightness_rating)
  | .const, r =>
      if p.const_filter = "" then true else matches_constellation p.const_filter r
  | .area, r =>
      @decide (haversine_km p.centerLat p.centerLon r.latitude r.longitude ≤ p.radius_km)
        (Classical.propDecidable _)

/-- Run a single tagged stage. -/
noncomputable def runStage (p : FilterParams) : StageTag → List Row → List Row
  | .date => dateStage p.dateRange
  | .bright => brightStage p.min_brightness
  | .const => constellationStage p.const_filter
  | .area => area_filtered p.centerLat p.centerLon p.radius_km

/-- Run the stages named by `l`, left to right. -/
noncomputable def applyStages (p : FilterParams) (l : List StageTag)
    (rows : List Row) : List Row :=
  l.foldl (fun acc s => runStage p s acc) rows

/-! ### Aggregator (`visualizations.py`, `time_series`, lines 263-277)

`time_series` runs `df.set_index("timestamp").resample(freq).brightness_rating.mean()`:
pandas lays out one bin per calendar period between the minimum and the
maximum timestamp and takes the mean per bin, producing `NaN` for bins
holding no record (the chart then uses `connectgaps=True` to draw through
those `NaN`s).  The model uses `Nat` seconds since the Unix epoch (the
post-1970 range this system produces) and identifies each bin by its
bucket index; the mean of an empty bin is `none`. -/

/-- The `freq` token of `time_series`: daily / weekly / monthly. -/
inductive Freq where
  | D | W | M
deriving DecidableEq

/-- Day index of a timestamp in seconds. -/
def dayIdx (t : Nat) : Nat := t / 86400

/-- Month index (months since January 1970) of a day number: the number of
months whose successor starts on or before day `d`. -/
def monthIdx (d : Nat) : Nat :=
  (List.range (d + 1)).countP (fun k => decide (monthStart (k + 1) ≤ d))

/-- Bucket index of a timestamp under each granularity.  Weekly bins are
7-day periods with the pandas `W` (week ending Sunday) anchor; day 0
(1970-01-01) is a Thursday, so a new week group starts every day
`≡ 4 (mod 7)`. -/
def bucketIdx : Freq → Nat → Nat
  | .D, t => dayIdx t
  | .W, t => (dayIdx t + 3) / 7
  | .M, t => monthIdx (dayIdx t)

/-- One row of the (already filtered) table handed to `time_series`:
only the timestamp index and the averaged column matter. -/
structure TsRow where
  timestamp : Nat
  brightness_rating : ℚ
deriving DecidableEq

/-- The rows landing in bucket `b` under granularity `f`. -/
def bucketRows (rows : List TsRow) (f : Freq) (b : Nat) : List TsRow :=
  rows.filter (fun r => decide (bucketIdx f r.timestamp = b))

/-- Mean of the `brightness_rating` column. -/
def meanRating (xs : List TsRow) : ℚ :=
  (xs.map (fun r => r.brightness_rating)).sum / (xs.length : ℚ)

/-- Minimum timestamp of the non-empty table `r0 :: rest`. -/
def tsMin (r0 : TsRow) (rest : List TsRow) : Nat :=
  rest.foldl (fun a r => min a r.timestamp) r0.timestamp

/-- Maximum timestamp of the non-empty table `r0 :: rest`. -/
def tsMax (r0 : TsRow) (rest : List TsRow) : Nat :=
  rest.foldl (fun a r => max a r.timestamp) r0.timestamp

/-- Function `time_series` (`visualizations.py` lines 263-277): empty input yields
the empty sequence; otherwise one `(bucket, mean)` entry per bucket index
from the bucket of the first record to the bucket of the last record,
with `none` standing for the pandas `NaN` on record-free buckets. -/
def time_series (rows : List TsRow) (f : Freq) : List (Nat × Option ℚ) :=
  match rows with
  | [] => []
  | r0 :: rest =>
    let lo := bucketIdx f (tsMin r0 rest)
    let hi := bucketIdx f (tsMax r0 rest)
    (List.range (hi + 1 - lo)).map (fun i =>
      (lo + i,
        if (bucketRows rows f (lo + i)).isEmpty then none
        else some (meanRating (bucketRows rows f (lo + i)))))

/-! ### Constellation-detection flow (`urltoconstallation.py`, `app.py` lines 302-398)

The collaborator is network-driven, so its environment is embedded as the
outcomes of the individual HTTP interactions; the functions below replay
the source control flow over that environment.  A Python `sys.exit(1)`
raises `SystemExit`, which is *not* an `Exception` and therefore escapes
the `except Exception` blocks of the submission handler. -/

/-- How a modeled call terminates: a normal return, an ordinary raised
`Exception`, or a `SystemExit` from `sys.exit(1)`. -/
inductive Outcome (α : Type) where
  | ok (a : α)
  | raised
  | exited
deriving DecidableEq

/-- Environment of one detection attempt: the outcome of each remote
interaction of `urltoconstallation.py`. -/
structure DetectEnv where
  loginNetOk : Bool
  loginSuccess : Bool
  sessionKey : String
  fileExists : Bool
  uploadNetOk : Bool
  uploadSuccess : Bool
  uploadSubId : Option Nat
  subPollNetOk : Bool
  subJobId : Option Nat
  jobSolved : Bool
  resultsNetOk : Bool
  resultNames : List String

/-- Function `login` (lines 19-40): a `RequestException` or a non-success status
both end in `sys.exit(1)`; success returns the session key. -/
def loginM (env : DetectEnv) : Outcome String :=
  if !env.loginNetOk then .exited
  else if env.loginSuccess then .ok env.sessionKey
  else .exited

/-- Function `upload_image` (lines 42-75): missing file, request failure, or a
non-success status all end in `sys.exit(1)`; success returns `subid`. -/
def upload_image (env : DetectEnv) : Outcome (Option Nat) :=
  if !env.fileExists then .exited
  else if !env.uploadNetOk then .exited
  else if env.uploadSuccess then .ok env.uploadSubId
  else .exited

/-- Function `poll_submission_status` (lines 77-84): an unguarded `requests.get`;
network failure raises an ordinary exception. -/
def poll_submission_status (env : DetectEnv) : Outcome (Option Nat) :=
  if env.subPollNetOk then .ok env.subJobId else .raised

/-- Function `get_job_results` (lines 119-146): `raise_for_status` propagates an
ordinary exception; otherwise the parsed constellation names come back. -/
def get_job_results (env : DetectEnv) : Outcome (List String) :=
  if env.resultsNetOk then .ok env.resultNames else .raised

/-- Function `setConstellation` (lines 148-166), with the handler
`setConstellation(...) or []` coercion of a bare `return` (None) folded in
as `.ok []`.  `poll_job_status` always returns a boolean (`env.jobSolved`):
its polling loop catches request errors and its timeout returns `False`. -/
def setConstellation (env : DetectEnv) : Outcome (List String) :=
  match loginM env with
  | .exited => .exited
  | .raised => .raised
  | .ok key =>
    if key = "" then .ok []
    else
      match upload_image env with
      | .exited => .exited
      | .raised => .raised
      | .ok none => .ok []
      | .ok (some _) =>
        match poll_submission_status env with
        | .exited => .exited
        | .raised => .raised
        | .ok none => .ok []
        | .ok (some _) =>
          if env.jobSolved then
            match get_job_results env with
            | .exited => .exited
            | .raised => .raised
            | .ok names => .ok names
          else .ok []

/-- Whether the submission handler (`app.py` lines 302-398) reaches a
successful persistence call after the detection step.
A normal return proceeds to the persistence block.
A raised `Exception` is caught at line 321, but `detected_constellations`
(assigned only at line 312, inside the failed `try`) is then unbound, so
building `new_record` at line 350 raises `NameError` inside the
persistence `try` (line 331), which ends in `st.error` — not a write.
A `SystemExit` escapes every `except Exception` and aborts the script
before the persistence block runs. -/
def photoUploadPersists (env : DetectEnv) : Bool :=
  match setConstellation env with
  | .ok _ => true
  | .raised => false
  | .exited => false

/-- The names attached to the new record when persistence is reached. -/
def detectedNames (env : DetectEnv) : List String :=
  match setConstellation env with
  | .ok names => names
  | _ => []

/-! ### Concrete instances used by the claim theorems below -/

/-- A canonical row whose `constellation_names` list is empty while the
legacy `constellation_name` field holds a matching name. -/
def c1BadRow : Row := ⟨"row-1", "", 0, 0, 0, 3, "Orion", []⟩

/-- A canonical row carrying two detected constellation names. -/
def c1GoodRow : Row := ⟨"row-2", "", 0, 0, 0, 3, "", ["Orion", "Lyra"]⟩

/-- A two-record table with a one-day gap: records on day 0 and day 2. -/
def tsRowsGap : List TsRow := [⟨0, 2⟩, ⟨172800, 4⟩]

/-- A concrete parameter set (no date bound, floor 1, no constellation
filter, center at the origin, 100 km radius). -/
def pParams0 : FilterParams := ⟨none, 1, "", 0, 0, 100⟩

/-- Detection attempt whose Astrometry login responds with a non-success
status: `login` runs `sys.exit(1)`. -/
def envLoginFail : DetectEnv :=
  ⟨true, false, "k", true, true, true, some 1, true, some 1, true, true, ["Orion"]⟩

/-- Detection attempt whose login request fails on the network:
`login` catches `RequestException` and runs `sys.exit(1)`. -/
def envLoginNetErr : DetectEnv :=
  ⟨false, true, "k", true, true, true, some 1, true, some 1, true, true, ["Orion"]⟩

/-- Detection attempt whose upload responds with a non-success status:
`upload_image` runs `sys.exit(1)`. -/
def envUploadFail : DetectEnv :=
  ⟨true, true, "k", true, true, false, some 1, true, some 1, true, true, ["Orion"]⟩

/-- Detection attempt whose submission-status poll fails on the network:
the unguarded `requests.get` raises an ordinary exception. -/
def envPollRaise : DetectEnv :=
  ⟨true, true, "k", true, true, true, some 1, false, some 1, true, true, ["Orion"]⟩

/-- Detection attempt whose job polling times out:
`poll_job_status` returns `False` and `setConstellation` returns `[]`. -/
def envTimeout : DetectEnv :=
  ⟨true, true, "k", true, true, true, some 1, true, some 1, false, true, ["Orion"]⟩

/-! ### Pipeline structure lemmas -/

/-- Every tagged stage is the filter by its stage predicate. -/
theorem stage_eq_filter (p : FilterParams) (s : StageTag) (rows : List Row) :
    runStage p s rows = rows.filter (stagePred p s) := by
  cases s with
  | date =>
      cases h : p.dateRange with
      | none =>
          show dateStage p.dateRange rows = _
          rw [h]
          refine (List.filter_eq_self.mpr ?_).symm
          intro a _
          simp [stagePred, h]
      | some se =>
          show dateStage p.dateRange rows = _
          rw [h]
          cases se with
          | mk a b => exact List.filter_congr (fun r _ => by simp [stagePred, h])
  | bright => rfl
  | const =>
      by_cases h : p.const_filter = ""
      · show constellationStage p.const_filter rows = _
        rw [h]
        simp only [constellationStage, if_pos rfl]
        refine (List.filter_eq_self.mpr ?_).symm
        intro a _
        simp [stagePred, h]
      · show constellationStage p.const_filter rows = _
        simp only [constellationStage, if_neg h]
        exact List.filter_congr (fun r _ => by simp [stagePred, h])
  | area => rfl

/-- Any two stages commute. -/
theorem stage_commute (p : FilterParams) (s t : StageTag) (rows : List Row) :
    runStage p s (runStage p t rows) = runStage p t (runStage p s rows) := by
  rw [stage_eq_filter, stage_eq_filter, stage_eq_filter, stage_eq_filter,
    List.filter_filter, List.filter_filter]
  exact List.filter_congr (fun a _ => Bool.and_comm _ _)

/-- Every stage is idempotent. -/
theorem stage_idem (p : FilterParams) (s : StageTag) (rows : List Row) :
    runStage p s (runStage p s rows) = runStage p s rows := by
  rw [stage_eq_filter, stage_eq_filter, List.filter_filter]
  exact List.filter_congr (fun a _ => Bool.and_self _)

/-- The output of every stage is an order-preserving subsequence of its input. -/
theorem stage_sublist (p : FilterParams) (s : StageTag) (rows : List Row) :
    List.Sublist (runStage p s rows) rows := by
  rw [stage_eq_filter]; exact List.filter_sublist rows

/-- Stages map sublists to sublists. -/
theorem stage_sublist_mono (p : FilterParams) (s : StageTag)
    {A B : List Row} (h : List.Sublist A B) :
    List.Sublist (runStage p s A) (runStage p s B) := by
  rw [stage_eq_filter, stage_eq_filter]; exact h.filter _

/-- Running a permuted stage list gives the same table. -/
theorem applyStages_perm {l₁ l₂ : List StageTag} (h : l₁.Perm l₂)
    (p : FilterParams) : ∀ rows, applyStages p l₁ rows = applyStages p l₂ rows := by
  induction h with
  | nil => intro rows; rfl
  | cons x _ ih =>
      intro rows
      simp only [applyStages, List.foldl_cons] at ih ⊢
      exact ih _
  | swap x y l =>
      intro rows
      simp only [applyStages, List.foldl_cons]
      rw [stage_commute]
  | trans _ _ ih₁ ih₂ =>
      intro rows
      rw [ih₁, ih₂]

/-- The source pipeline is exactly the code-order stage list. -/
theorem fullPipeline_eq_applyStages (p : FilterParams) (rows : List Row) :
    fullPipeline p rows =
      applyStages p [StageTag.date, StageTag.bright, StageTag.const, StageTag.area] rows := rfl

/-! ### Aggregator lemmas -/

/-- Monotonicity of `monthIdx`. -/
theorem monthIdx_mono {d d' : Nat} (h : d ≤ d') : monthIdx d ≤ monthIdx d' := by
  unfold monthIdx
  calc (List.range (d + 1)).countP (fun k => decide (monthStart (k + 1) ≤ d))
      ≤ (List.range (d + 1)).countP (fun k => decide (monthStart (k + 1) ≤ d')) := by
        refine List.countP_mono_left (fun k _ hk => ?_)
        exact decide_eq_true (le_trans (of_decide_eq_true hk) h)
    _ ≤ (List.range (d' + 1)).countP (fun k => decide (monthStart (k + 1) ≤ d')) := by
        exact List.Sublist.countP_le _ (List.range_sublist.mpr (by omega))

/-- Bucket indices are monotone in the timestamp for every granularity. -/
theorem bucketIdx_mono (f : Freq) {t t' : Nat} (h : t ≤ t') :
    bucketIdx f t ≤ bucketIdx f t' := by
  cases f with
  | D => exact Nat.div_le_div_right h
  | W => exact Nat.div_le_div_right (Nat.add_le_add_right (Nat.div_le_div_right h) 3)
  | M => exact monthIdx_mono (Nat.div_le_div_right h)

theorem foldl_min_le_init (l : List TsRow) (a : Nat) :
    l.foldl (fun x r => min x r.timestamp) a ≤ a := by
  induction l generalizing a with
  | nil => exact le_refl a
  | cons r l ih =>
      exact le_trans (ih (min a r.timestamp)) (min_le_left _ _)

theorem foldl_min_le_mem (l : List TsRow) (a : Nat) {r : TsRow} (hr : r ∈ l) :
    l.foldl (fun x r => min x r.timestamp) a ≤ r.timestamp := by
  induction l generalizing a with
  | nil => cases hr
  | cons x l ih =>
      rcases List.mem_cons.mp hr with h | h
      · subst h
        exact le_trans (foldl_min_le_init l _) (min_le_right _ _)
      · exact ih _ h

theorem init_le_foldl_max (l : List TsRow) (a : Nat) :
    a ≤ l.foldl (fun x r => max x r.timestamp) a := by
  induction l generalizing a with
  | nil => exact le_refl a
  | cons r l ih =>
      exact le_trans (le_max_left _ _) (ih (max a r.timestamp))

theorem mem_le_foldl_max (l : List TsRow) (a : Nat) {r : TsRow} (hr : r ∈ l) :
    r.timestamp ≤ l.foldl (fun x r => max x r.timestamp) a := by
  induction l generalizing a with
  | nil => cases hr
  | cons x l ih =>
      rcases List.mem_cons.mp hr with h | h
      · subst h
        exact le_trans (le_max_right _ _) (init_le_foldl_max l _)
      · exact ih _ h

/-- Lower bound: `tsMin` bounds every table member from below. -/
theorem tsMin_le (r0 : TsRow) (rest : List TsRow) {r : TsRow}
    (hr : r ∈ r0 :: rest) : tsMin r0 rest ≤ r.timestamp := by
  rcases List.mem_cons.mp hr with h | h
  · subst h; exact foldl_min_le_init rest _
  · exact foldl_min_le_mem rest _ h

/-- Upper bound: `tsMax` bounds every table member from above. -/
theorem le_tsMax (r0 : TsRow) (rest : List TsRow) {r : TsRow}
    (hr : r ∈ r0 :: rest) : r.timestamp ≤ tsMax r0 rest := by
  rcases List.mem_cons.mp hr with h | h
  · subst h; exact init_le_foldl_max rest _
  · exact mem_le_foldl_max rest _ h

/-- Membership in the `time_series` output of a non-empty table, structurally. -/
theorem time_series_mem (r0 : TsRow) (rest : List TsRow) (f : Freq)
    (b : Nat) (o : Option ℚ) :
    (b, o) ∈ time_series (r0 :: rest) f ↔
      bucketIdx f (tsMin r0 rest) ≤ b ∧ b ≤ bucketIdx f (tsMax r0 rest) ∧
      o = (if (bucketRows (r0 :: rest) f b).isEmpty then none
        else some (meanRating (bucketRows (r0 :: rest) f b))) := by
  have hmm : bucketIdx f (tsMin r0 rest) ≤ bucketIdx f (tsMax r0 rest) :=
    bucketIdx_mono f (le_trans (tsMin_le r0 rest (List.mem_cons_self r0 rest))
      (le_tsMax r0 rest (List.mem_cons_self r0 rest)))
  constructor
  · intro hmem
    simp only [time_series, List.mem_map, List.mem_range] at hmem
    obtain ⟨i, hi, heq⟩ := hmem
    have hb : bucketIdx f (tsMin r0 rest) + i = b := congrArg Prod.fst heq
    have ho := congrArg Prod.snd heq
    simp only at ho
    refine ⟨by omega, by omega, ?_⟩
    rw [← hb]
    exact ho.symm
  · rintro ⟨h1, h2, ho⟩
    simp only [time_series, List.mem_map, List.mem_range]
    refine ⟨b - bucketIdx f (tsMin r0 rest), by omega, ?_⟩
    have hb : bucketIdx f (tsMin r0 rest) + (b - bucketIdx f (tsMin r0 rest)) = b := by omega
    rw [hb, ho]

/-- The bucket of every record holds at least that record. -/
theorem mem_bucketRows_self {rows : List TsRow} {r : TsRow} (hr : r ∈ rows)
    (f : Freq) : r ∈ bucketRows rows f (bucketIdx f r.timestamp) := by
  simp [bucketRows, List.mem_filter, hr]

/-! ### Claim theorems -/

/-- Claim C1 (amended): on canonical tables the constellation stage with an
empty filter string is a pass-through, and with a non-empty filter string it
keeps exactly the rows in which the filter is, case-insensitively, a
substring of some non-empty entry of `constellation_names`; the
`constellation_name` fallback is never consulted, because canonical rows
always carry a list in `constellation_names`, so rows with an empty
`constellation_names` list are dropped. -/
theorem constellation_stage_amended (f : String) (rows : List Row) :
    (f = "" → constellationStage f rows = rows) ∧
    (f ≠ "" → ∀ r : Row, r ∈ constellationStage f rows ↔
      r ∈ rows ∧ ∃ n ∈ r.constellation_names, n ≠ "" ∧ substrCI f n = true) := by
  constructor
  · intro h
    simp [constellationStage, h]
  · intro h r
    simp only [constellationStage, if_neg h, List.mem_filter,
      matches_constellation, List.any_eq_true, Bool.and_eq_true, bne_iff_ne, ne_eq]

/-- Claim C1, counterexample: a canonical row whose `constellation_names`
list is empty and whose legacy `constellation_name` is "Orion" satisfies
the claimed predicate for the filter "ori", yet the coded stage drops it:
the `isinstance(..., list)` branch returns `any(...)` over the empty list
and the `constellation_name` fallback is unreachable. -/
theorem constellation_stage_counterexample :
    spec_matches_constellation "ori" c1BadRow = true ∧
    matches_constellation "ori" c1BadRow = false ∧
    constellationStage "ori" [c1BadRow] = [] := by
  refine ⟨by decide, by decide, ?_⟩
  rfl

/-- Claim C1, witness: the amended statement applied to a concrete table. -/
theorem constellation_stage_witness :
    (("" : String) = "" ∧ constellationStage "" [c1GoodRow] = [c1GoodRow]) ∧
    (("ori" : String) ≠ "" ∧
      (c1GoodRow ∈ constellationStage "ori" [c1GoodRow] ↔
        c1GoodRow ∈ [c1GoodRow] ∧
        ∃ n ∈ c1GoodRow.constellation_names, n ≠ "" ∧ substrCI "ori" n = true)) :=
  ⟨⟨rfl, (constellation_stage_amended "" [c1GoodRow]).1 rfl⟩,
   ⟨by decide, (constellation_stage_amended "ori" [c1GoodRow]).2 (by decide) c1GoodRow⟩⟩

/-- Claim C3: the claim says a failed detection call never aborts the
submission and the record is still persisted.  The code violates this: a
login failure or upload failure runs `sys.exit(1)` (a `SystemExit`, which
escapes `except Exception`), aborting the script before the persistence
block, and a network error raised out of `setConstellation` is caught but
leaves `detected_constellations` unbound, so the persistence block dies on
a `NameError`.  Only the polling-timeout path persists the record (with no
constellations), as the claim describes. -/
theorem detection_failure_aborts_submission :
    photoUploadPersists envLoginFail = false ∧
    photoUploadPersists envLoginNetErr = false ∧
    photoUploadPersists envUploadFail = false ∧
    photoUploadPersists envPollRaise = false ∧
    (photoUploadPersists envTimeout = true ∧ detectedNames envTimeout = []) := by
  decide

set_option maxRecDepth 8000 in
/-- Claim C4: timestamp normalization anchors every parsed reading to UTC —
a tz-naive reading is taken as already UTC, a zone-aware reading has its
offset subtracted (so any zoned rendering of an instant normalizes to that
instant), and in particular the naive string `2024-01-01T00:00:00` and the
zoned string `2024-01-01T05:00:00+05:00` normalize to the identical UTC
instant 2024-01-01T00:00:00Z. -/
theorem timestamp_normalization :
    (∀ n : Int, parse_timestamp_utc ⟨n, none⟩ = n) ∧
    (∀ n off : Int, parse_timestamp_utc ⟨n + off, some off⟩ = n) ∧
    parse_timestamp_utc ⟨epochSeconds 2024 1 1 0 0 0, none⟩ =
      epochSeconds 2024 1 1 0 0 0 ∧
    parse_timestamp_utc ⟨epochSeconds 2024 1 1 5 0 0, some (5 * 3600)⟩ =
      epochSeconds 2024 1 1 0 0 0 := by
  refine ⟨fun n => rfl, fun n off => ?_, rfl, ?_⟩
  · simp [parse_timestamp_utc, tz_convert_utc]
  · show epochSeconds 2024 1 1 5 0 0 - 5 * 3600 = epochSeconds 2024 1 1 0 0 0
    decide

/-- Claim C8: the date-range stage keeps exactly the rows whose UTC
timestamp lies in the inclusive interval from the start of the start day to
the start of the day after the end day minus one second (`end_of_day`);
bounds and timestamps are compared as instants in the single (UTC) table
zone. -/
theorem date_range_stage (s e : Int) (rows : List Row) (r : Row) :
    r ∈ dateStage (some (s, e)) rows ↔
      r ∈ rows ∧ s * 86400 ≤ r.timestamp ∧ r.timestamp ≤ (e + 1) * 86400 - 1 := by
  simp [dateStage, List.mem_filter, Bool.and_eq_true, decide_eq_true_iff, and_assoc]

/-- Claim C5: the distance function of the geospatial stage is the haversine
formula on a sphere of radius 6371.0 km with degree inputs converted to
radians; hence the distance from any point to itself is 0, the distance
between an equator point and its antipodal equator point is exactly
`6371·π` km (which lies strictly between 20015 and 20016 km), and the area
stage keeps a row exactly when its distance to the center is at most
`radius_km`. -/
theorem haversine_correctness :
    (∀ lat lon : ℝ, haversine_km lat lon lat lon = 0) ∧
    (haversine_km 0 0 0 180 = 6371 * Real.pi ∧
      20015 < 6371 * Real.pi ∧ 6371 * Real.pi < 20016) ∧
    (∀ (cla clo rad : ℝ) (rows : List Row) (r : Row),
      r ∈ area_filtered cla clo rad rows ↔
        r ∈ rows ∧ haversine_km cla clo r.latitude r.longitude ≤ rad) := by
  refine ⟨?_, ⟨?_, ?_, ?_⟩, ?_⟩
  · intro lat lon
    simp [haversine_km, sub_self, zero_div, Real.sin_zero]
  · have h180 : radians 180 = Real.pi := by unfold radians; ring
    have h0 : radians 0 = 0 := by unfold radians; ring
    simp only [haversine_km, h180]
    rw [h0]
    norm_num [Real.sin_pi_div_two, Real.cos_zero, Real.sqrt_one, Real.arcsin_one]
    ring
  · have lo := Real.pi_gt_d6
    nlinarith
  · have hi := Real.pi_lt_d6
    nlinarith
  · intro cla clo rad rows r
    simp [area_filtered, List.mem_filter]

/-- Claim C7: applying the full filter pipeline twice with identical
parameters yields the same table as applying it once. -/
theorem pipeline_idempotent (p : FilterParams) (rows : List Row) :
    fullPipeline p (fullPipeline p rows) = fullPipeline p rows := by
  have h : fullPipeline p (fullPipeline p rows) =
      applyStages p [StageTag.date, StageTag.bright, StageTag.const, StageTag.area,
        StageTag.date, StageTag.bright, StageTag.const, StageTag.area] rows := by
    rw [fullPipeline_eq_applyStages, fullPipeline_eq_applyStages]
    simp [applyStages, List.foldl_append]
  rw [h, applyStages_perm
    (show ([StageTag.date, StageTag.bright, StageTag.const, StageTag.area,
        StageTag.date, StageTag.bright, StageTag.const, StageTag.area].Perm
      [StageTag.date, StageTag.date, StageTag.bright, StageTag.bright,
        StageTag.const, StageTag.const, StageTag.area, StageTag.area]) by decide)
    p rows]
  simp only [applyStages, List.foldl_cons, List.foldl_nil]
  rw [stage_idem, stage_idem, stage_idem, stage_idem]
  rfl

/-- Claim C9: the canonical table is sorted by timestamp ascending
immediately after load (both store variants run the same final sort), and
every filter stage — and the whole pipeline — returns an order-preserving
subsequence of its input. -/
theorem load_sorted_and_stages_order_preserving :
    (∀ entries : List RawEntry,
      (load_data entries).Pairwise (fun a b => a.timestamp ≤ b.timestamp)) ∧
    (∀ (p : FilterParams) (rows : List Row),
      List.Sublist (dateStage p.dateRange rows) rows ∧
      List.Sublist (brightStage p.min_brightness rows) rows ∧
      List.Sublist (constellationStage p.const_filter rows) rows ∧
      List.Sublist (area_filtered p.centerLat p.centerLon p.radius_km rows) rows ∧
      List.Sublist (fullPipeline p rows) rows) := by
  constructor
  · intro entries
    have h := @List.sorted_mergeSort Row
      (fun a b : Row => decide (a.timestamp ≤ b.timestamp))
      (fun a b c h1 h2 =>
        decide_eq_true (le_trans (of_decide_eq_true h1) (of_decide_eq_true h2)))
      (fun a b => by
        rcases le_total a.timestamp b.timestamp with h | h <;> simp [h])
      (entries.map normalizeEntry)
    exact h.imp (fun hab => of_decide_eq_true hab)
  · intro p rows
    refine ⟨stage_sublist p .date rows, stage_sublist p .bright rows,
      stage_sublist p .const rows, stage_sublist p .area rows, ?_⟩
    rw [fullPipeline_eq_applyStages]
    simp only [applyStages, List.foldl_cons, List.foldl_nil]
    exact ((stage_sublist p .area _).trans ((stage_sublist p .const _).trans
      ((stage_sublist p .bright _).trans (stage_sublist p .date rows))))

/-- Claim C10: the four filter stages pairwise commute, so running them in
any order — in particular the spec order (brightness, constellation,
date, geospatial) — produces the same table as the code order (date,
brightness, constellation, geospatial). -/
theorem stage_order_commutes (l : List StageTag)
    (h : l.Perm [StageTag.date, StageTag.bright, StageTag.const, StageTag.area])
    (p : FilterParams) (rows : List Row) :
    applyStages p l rows = fullPipeline p rows := by
  rw [fullPipeline_eq_applyStages]
  exact applyStages_perm h p rows

/-- Claim C10, witness: the spec-order stage list is a permutation of the
code-order list and yields the same table on a concrete run. -/
theorem stage_order_commutes_witness :
    ([StageTag.bright, StageTag.const, StageTag.date, StageTag.area].Perm
      [StageTag.date, StageTag.bright, StageTag.const, StageTag.area]) ∧
    applyStages pParams0 [StageTag.bright, StageTag.const, StageTag.date, StageTag.area]
        [c1GoodRow] =
      fullPipeline pParams0 [c1GoodRow] :=
  ⟨by decide, stage_order_commutes _ (by decide) pParams0 [c1GoodRow]⟩

/-- Claim C6: with all other parameters fixed, raising `min_brightness`
never increases the filtered result-set size, narrowing the date range
never increases it, and shrinking `radius_km` never increases it. -/
theorem filter_monotonicity :
    (∀ (rows : List Row) (dr : Option (Int × Int)) (cf : String)
        (cla clo rad : ℝ) (m₁ m₂ : Int), m₁ ≤ m₂ →
      (fullPipeline ⟨dr, m₂, cf, cla, clo, rad⟩ rows).length ≤
        (fullPipeline ⟨dr, m₁, cf, cla, clo, rad⟩ rows).length) ∧
    (∀ (rows : List Row) (s₁ e₁ s₂ e₂ : Int) (m : Int) (cf : String)
        (cla clo rad : ℝ), s₁ ≤ s₂ → e₂ ≤ e₁ →
      (fullPipeline ⟨some (s₂, e₂), m, cf, cla, clo, rad⟩ rows).length ≤
        (fullPipeline ⟨some (s₁, e₁), m, cf, cla, clo, rad⟩ rows).length) ∧
    (∀ (rows : List Row) (dr : Option (Int × Int)) (m : Int) (cf : String)
        (cla clo : ℝ) (rad₁ rad₂ : ℝ), rad₁ ≤ rad₂ →
      (fullPipeline ⟨dr, m, cf, cla, clo, rad₁⟩ rows).length ≤
        (fullPipeline ⟨dr, m, cf, cla, clo, rad₂⟩ rows).length) := by
  refine ⟨?_, ?_, ?_⟩
  · intro rows dr cf cla clo rad m₁ m₂ h
    have hb : List.Sublist (brightStage m₂ (dateStage dr rows))
        (brightStage m₁ (dateStage dr rows)) :=
      List.monotone_filter_right _ (fun r hr =>
        decide_eq_true (le_trans h (of_decide_eq_true hr)))
    have hc := stage_sublist_mono ⟨dr, m₁, cf, cla, clo, rad⟩ .const hb
    have ha := stage_sublist_mono ⟨dr, m₁, cf, cla, clo, rad⟩ .area hc
    exact ha.length_le
  · intro rows s₁ e₁ s₂ e₂ m cf cla clo rad h1 h2
    have hd : List.Sublist (dateStage (some (s₂, e₂)) rows)
        (dateStage (some (s₁, e₁)) rows) :=
      List.monotone_filter_right _ (by
        intro r hr
        simp only [Bool.and_eq_true, decide_eq_true_eq] at hr ⊢
        omega)
    have hb := stage_sublist_mono ⟨some (s₁, e₁), m, cf, cla, clo, rad⟩ .bright hd
    have hc := stage_sublist_mono ⟨some (s₁, e₁), m, cf, cla, clo, rad⟩ .const hb
    have ha := stage_sublist_mono ⟨some (s₁, e₁), m, cf, cla, clo, rad⟩ .area hc
    exact ha.length_le
  · intro rows dr m cf cla clo rad₁ rad₂ h
    have ha : List.Sublist
        (area_filtered cla clo rad₁
          (constellationStage cf (brightStage m (dateStage dr rows))))
        (area_filtered cla clo rad₂
          (constellationStage cf (brightStage m (dateStage dr rows)))) :=
      List.monotone_filter_right _ (fun r hr =>
        decide_eq_true (le_trans (of_decide_eq_true hr) h))
    exact ha.length_le

/-- Claim C6, witness: the three monotonicity statements applied at
concrete parameter pairs. -/
theorem filter_monotonicity_witness :
    ((1 : Int) ≤ 2 ∧
      (fullPipeline ⟨none, 2, "", 0, 0, 100⟩ [c1GoodRow]).length ≤
        (fullPipeline ⟨none, 1, "", 0, 0, 100⟩ [c1GoodRow]).length) ∧
    ((0 : Int) ≤ 1 ∧ (2 : Int) ≤ 3 ∧
      (fullPipeline ⟨some (1, 2), 1, "", 0, 0, 100⟩ [c1GoodRow]).length ≤
        (fullPipeline ⟨some (0, 3), 1, "", 0, 0, 100⟩ [c1GoodRow]).length) ∧
    ((100 : ℝ) ≤ 100 ∧
      (fullPipeline ⟨none, 1, "", 0, 0, 100⟩ [c1GoodRow]).length ≤
        (fullPipeline ⟨none, 1, "", 0, 0, 100⟩ [c1GoodRow]).length) :=
  ⟨⟨by decide, filter_monotonicity.1 [c1GoodRow] none "" 0 0 100 1 2 (by decide)⟩,
   ⟨by decide, by decide,
     filter_monotonicity.2.1 [c1GoodRow] 0 3 1 2 1 "" 0 0 100 (by decide) (by decide)⟩,
   ⟨le_refl 100,
     filter_monotonicity.2.2 [c1GoodRow] none 1 "" 0 0 100 100 (le_refl 100)⟩⟩

/-- Claim C2 (amended): for every granularity the aggregator yields an
empty sequence on empty input and otherwise one pair per bucket index from
the bucket of the first record to the bucket of the last record, in strictly
ascending bucket order; every pair carrying a mean belongs to a bucket
with at least one record and carries exactly the mean brightness of that
bucket, the bucket of every record appears with its mean, and — unlike
the omission of empty buckets the claim asserts — a pair `(b, none)` is
emitted exactly for the record-free buckets `b` inside the spanned range:
for every non-empty table, every bucket between the bucket of the minimum
timestamp and the bucket of the maximum timestamp that contains zero
records appears with a missing (`NaN`) mean. -/
theorem aggregator_amended (rows : List TsRow) (f : Freq) :
    (rows = [] → time_series rows f = []) ∧
    ((time_series rows f).map Prod.fst).Pairwise (fun a b => a < b) ∧
    (∀ (b : Nat) (μ : ℚ), (b, some μ) ∈ time_series rows f ↔
      bucketRows rows f b ≠ [] ∧ μ = meanRating (bucketRows rows f b)) ∧
    (∀ (r0 : TsRow) (rest : List TsRow), rows = r0 :: rest → ∀ b : Nat,
      ((b, (none : Option ℚ)) ∈ time_series rows f ↔
        bucketIdx f (tsMin r0 rest) ≤ b ∧ b ≤ bucketIdx f (tsMax r0 rest) ∧
        bucketRows rows f b = [])) ∧
    (∀ r ∈ rows,
      (bucketIdx f r.timestamp,
        some (meanRating (bucketRows rows f (bucketIdx f r.timestamp)))) ∈
        time_series rows f) := by
  cases rows with
  | nil =>
      refine ⟨fun _ => rfl, ?_, ?_, ?_, ?_⟩
      · simp [time_series]
      · intro b μ
        simp [time_series, bucketRows]
      · intro r0 rest h
        cases h
      · intro r hr
        cases hr
  | cons r0 rest =>
      have hbound : ∀ {r : TsRow}, r ∈ r0 :: rest →
          bucketIdx f (tsMin r0 rest) ≤ bucketIdx f r.timestamp ∧
          bucketIdx f r.timestamp ≤ bucketIdx f (tsMax r0 rest) := by
        intro r hr
        exact ⟨bucketIdx_mono f (tsMin_le r0 rest hr),
          bucketIdx_mono f (le_tsMax r0 rest hr)⟩
      refine ⟨?_, ?_, ?_, ?_, ?_⟩
      · intro h
        exact absurd h (List.cons_ne_nil r0 rest)
      · simp only [time_series, List.map_map]
        rw [List.pairwise_map]
        refine (List.pairwise_lt_range _).imp ?_
        intro a b hab
        simpa using Nat.add_lt_add_left hab (bucketIdx f (tsMin r0 rest))
      · intro b μ
        rw [time_series_mem]
        constructor
        · rintro ⟨h1, h2, ho⟩
          by_cases hE : (bucketRows (r0 :: rest) f b).isEmpty
          · rw [if_pos hE] at ho
            cases ho
          · rw [if_neg hE] at ho
            refine ⟨fun hnil => hE (by simp [hnil]), ?_⟩
            exact Option.some.inj ho
        · rintro ⟨hne, hμ⟩
          obtain ⟨x, hx⟩ := List.exists_mem_of_ne_nil _ hne
          have hx' := List.mem_filter.mp hx
          have hxb : bucketIdx f x.timestamp = b := of_decide_eq_true hx'.2
          have hb := hbound hx'.1
          have hE : (bucketRows (r0 :: rest) f b).isEmpty = false := by
            cases hEE : (bucketRows (r0 :: rest) f b).isEmpty
            · rfl
            · exact absurd (List.isEmpty_iff.mp hEE) hne
          refine ⟨by omega, by omega, ?_⟩
          rw [hE]
          simp [hμ]
      · intro r0h resth heq b
        cases heq
        rw [time_series_mem]
        constructor
        · rintro ⟨h1, h2, ho⟩
          refine ⟨h1, h2, ?_⟩
          by_cases hE : (bucketRows (r0 :: rest) f b).isEmpty
          · exact List.isEmpty_iff.mp hE
          · rw [if_neg hE] at ho
            cases ho
        · rintro ⟨h1, h2, hemp⟩
          refine ⟨h1, h2, ?_⟩
          rw [if_pos (List.isEmpty_iff.mpr hemp)]
      · intro r hr
        have hx : r ∈ bucketRows (r0 :: rest) f (bucketIdx f r.timestamp) :=
          mem_bucketRows_self hr f
        have hne : bucketRows (r0 :: rest) f (bucketIdx f r.timestamp) ≠ [] :=
          List.ne_nil_of_mem hx
        have hE : (bucketRows (r0 :: rest) f (bucketIdx f r.timestamp)).isEmpty = false := by
          cases hEE : (bucketRows (r0 :: rest) f (bucketIdx f r.timestamp)).isEmpty
          · rfl
          · exact absurd (List.isEmpty_iff.mp hEE) hne
        have hb := hbound hr
        rw [time_series_mem]
        refine ⟨hb.1, hb.2, ?_⟩
        rw [hE]
        simp

/-- Claim C2, counterexample: resampling records on day 0 and day 2 at day
granularity emits a pair for the record-free day 1 with a missing (`NaN`)
mean — the code does not omit empty buckets from the sequence. -/
theorem aggregator_counterexample :
    (1, (none : Option ℚ)) ∈ time_series tsRowsGap Freq.D ∧
    bucketRows tsRowsGap Freq.D 1 = [] ∧
    time_series tsRowsGap Freq.D =
      [(0, some 2), (1, none), (2, some 4)] := by
  have e0 : meanRating (bucketRows tsRowsGap Freq.D 0) = 2 := by
    rw [show bucketRows tsRowsGap Freq.D 0 = [⟨0, 2⟩] from rfl]
    simp [meanRating]
  have e2 : meanRating (bucketRows tsRowsGap Freq.D 2) = 4 := by
    rw [show bucketRows tsRowsGap Freq.D 2 = [⟨172800, 4⟩] from rfl]
    simp [meanRating]
  refine ⟨by decide, by decide, ?_⟩
  rw [show time_series tsRowsGap Freq.D =
      [(0, some (meanRating (bucketRows tsRowsGap Freq.D 0))), (1, none),
        (2, some (meanRating (bucketRows tsRowsGap Freq.D 2)))] from rfl,
    e0, e2]

/-- Claim C2, witness: the amended statement applied to the empty table
and to a concrete two-record table with a gap. -/
theorem aggregator_witness :
    (([] : List TsRow) = [] ∧ time_series ([] : List TsRow) Freq.D = []) ∧
    (tsRowsGap = (⟨0, 2⟩ : TsRow) :: [(⟨172800, 4⟩ : TsRow)] ∧
      ((1, (none : Option ℚ)) ∈ time_series tsRowsGap Freq.D ↔
        bucketIdx Freq.D (tsMin ⟨0, 2⟩ [⟨172800, 4⟩]) ≤ 1 ∧
        1 ≤ bucketIdx Freq.D (tsMax ⟨0, 2⟩ [⟨172800, 4⟩]) ∧
        bucketRows tsRowsGap Freq.D 1 = [])) ∧
    ((⟨0, 2⟩ : TsRow) ∈ tsRowsGap ∧
      (bucketIdx Freq.D 0,
        some (meanRating (bucketRows tsRowsGap Freq.D (bucketIdx Freq.D 0)))) ∈
        time_series tsRowsGap Freq.D) :=
  ⟨⟨rfl, (aggregator_amended [] Freq.D).1 rfl⟩,
   ⟨rfl, (aggregator_amended tsRowsGap Freq.D).2.2.2.1 ⟨0, 2⟩ [⟨172800, 4⟩] rfl 1⟩,
   ⟨by decide, (aggregator_amended tsRowsGap Freq.D).2.2.2.2 ⟨0, 2⟩ (by decide)⟩⟩
